import Mathlib

/-!
Verification development for the Contact Interaction Memory Engine
(`src/extensions/contact-memory/contact-memory/`).

The TypeScript source is shallowly embedded: each class method becomes a
Lean function over explicit state, JS numbers carrying epoch-millisecond
timestamps become `Int`, JS floats used for confidence/relevance scores
become `ℚ` (the source only combines decimal literals, so rational
arithmetic matches the intended real-number semantics), and the SQLite
tables behind the Store become lists of row records with the declared
PRIMARY KEY constraints checked on insert.

Two pieces of the source depend on the host environment and are treated
as uninterpreted functions of their inputs:
 * `getWeekKey` calls `Date#getFullYear`/`new Date(year, 0, 1)`, which
   depend on the host timezone; it is modelled as an arbitrary function
   `wk : Int → String` of the timestamp.
 * `toLocaleDateString` (used only inside a summary display string) is
   modelled as an arbitrary function `fd : Int → String`.
 * the regex engine behind the commitment/preference `matchAll` calls in
   `extractKeyFacts`, and behind `extractEntities`, is modelled as
   arbitrary clause/entity extractors; the accept/reject policy applied
   to the extracted clauses is embedded faithfully.
 * `nanoid()` produces one fresh random id per call; it is modelled as an
   arbitrary function `nid : Nat → String` of the call ordinal.
All theorems quantify over these functions, so they hold for every
timezone / locale / regex-match result / id stream.
-/

namespace ContactMemory

/-- Embedding of `'positive' | 'neutral' | 'negative'` from `types.ts`. -/
inductive Sentiment
  | positive
  | neutral
  | negative
deriving DecidableEq, Repr, Inhabited

/-- Channel enum from `types.ts`. -/
inductive Channel
  | phone
  | sms
  | email
  | whatsapp
  | webchat
  | other
deriving DecidableEq, Repr, Inhabited

/-- Direction enum from `types.ts`. -/
inductive Direction
  | inbound
  | outbound
deriving DecidableEq, Repr, Inhabited

/-- Embedding of `ExtractedEntity` from `types.ts`. -/
structure ExtractedEntity where
  etype : String
  value : String
  confidence : ℚ
deriving DecidableEq, Repr, Inhabited

/-- Embedding of `Interaction` from `types.ts`.  `timestamp` is epoch milliseconds. -/
structure Interaction where
  id : String
  timestamp : Int
  channel : Channel
  direction : Direction
  summary : String
  fullContent : Option String
  entities : List ExtractedEntity
  sentiment : Option Sentiment
  topics : List String
deriving DecidableEq, Repr, Inhabited

/-- KeyFact category from `types.ts`. -/
inductive FactCategory
  | preference
  | commitment
  | objection
  | question
  | other
deriving DecidableEq, Repr, Inhabited

/-- Embedding of `KeyFact` from `types.ts`. -/
structure KeyFact where
  id : String
  fact : String
  source : String
  confidence : ℚ
  timestamp : Int
  category : FactCategory
deriving DecidableEq, Repr, Inhabited

/-- Embedding of `maxAge` in `MemoryCompactor`: 90 days in milliseconds. -/
def maxAge : Int := 90 * 24 * 60 * 60 * 1000

/-- Embedding of `maxInteractions` in `MemoryCompactor`: hard cap of 100. -/
def maxInteractions : Nat := 100

/-- Embedding of `summaryThreshold` in `MemoryCompactor`: 30 days in milliseconds. -/
def summaryThreshold : Int := 30 * 24 * 60 * 60 * 1000

/-- JS `Set`-style deduplication: keep the first occurrence of each
element, in order (`[...new Set(xs)]`).  `seen` accumulates the elements
already emitted. -/
def dedupFirst {α : Type} [DecidableEq α] (seen : List α) : List α → List α
  | [] => []
  | a :: l => if a ∈ seen then dedupFirst seen l else a :: dedupFirst (a :: seen) l

/-- Insert into a newest-first list, before the first element that is
not newer — the insertion step of a stable descending-by-timestamp
sort. -/
def insertByTs (a : Interaction) : List Interaction → List Interaction
  | [] => [a]
  | x :: rest =>
      if x.timestamp ≤ a.timestamp then a :: x :: rest else x :: insertByTs a rest

/-- Embedding of `interactions.sort((a, b) => b.timestamp - a.timestamp)`: ES2019
`Array#sort` is a stable sort, and a stable sort's output for a total
comparator is unique, so it is modelled by a (structurally recursive,
hence evaluable) stable insertion sort. -/
def sortNewestFirst : List Interaction → List Interaction
  | [] => []
  | a :: rest => insertByTs a (sortNewestFirst rest)

/-- The `recent` / `old` partition loop in `MemoryCompactor.compact`
(lines 24–34): walking the sorted list, an interaction goes to `recent`
if its age is below `summaryThreshold` or fewer than 20 interactions are
in `recent` so far; otherwise it goes to `old`.  `rc` is the current
`recent.length`. -/
def splitRecentOld (now : Int) (rc : Nat) : List Interaction → List Interaction × List Interaction
  | [] => ([], [])
  | i :: rest =>
      if now - i.timestamp < summaryThreshold ∨ rc < 20 then
        let p := splitRecentOld now (rc + 1) rest
        (i :: p.1, p.2)
      else
        let p := splitRecentOld now rc rest
        (p.1, i :: p.2)

/-- Embedding of `MemoryCompactor.determineOverallSentiment`: compare positive and
negative counts; ties (and the empty list) give `neutral`. -/
def determineOverallSentiment (sentiments : List Sentiment) : Sentiment :=
  if sentiments.length = 0 then .neutral
  else
    let pos := (sentiments.filter (· = .positive)).length
    let neg := (sentiments.filter (· = .negative)).length
    if neg < pos then .positive
    else if pos < neg then .negative
    else .neutral

/-- Rendering of a `Channel` back to its source string literal (the JS
values are plain strings, joined with `', '` in the summary template). -/
def channelText : Channel → String
  | .phone => "phone"
  | .sms => "sms"
  | .email => "email"
  | .whatsapp => "whatsapp"
  | .webchat => "webchat"
  | .other => "other"

/-- The summary `Interaction` synthesized for a week group in
`MemoryCompactor.summarizeInteractions` (lines 83–98).  `first` is
`groupInteractions[0]` and `g` the whole group, in list order. -/
def mkWeekSummary (fd : Int → String) (weekKey : String)
    (first : Interaction) (g : List Interaction) : Interaction :=
  let channels := dedupFirst [] (g.map Interaction.channel)
  let topics := dedupFirst [] (g.flatMap Interaction.topics)
  let sentiments := g.filterMap Interaction.sentiment
  { id := "summary_" ++ weekKey
    timestamp := first.timestamp
    channel := .other
    direction := .inbound
    summary := "Week of " ++ fd first.timestamp ++ ": " ++ toString g.length
      ++ " interactions across " ++ String.intercalate ", " (channels.map channelText)
      ++ ". Topics: " ++ String.intercalate ", " (topics.take 3)
    fullContent := none
    entities := []
    sentiment := some (determineOverallSentiment sentiments)
    topics := topics }

/-- Per-group branch of `summarizeInteractions` (lines 77–101): a
singleton group passes through unmodified; a larger group is replaced by
one synthesized summary. -/
def summarizeGroup (fd : Int → String) (weekKey : String) : List Interaction → Interaction
  | [] => default
  | [i] => i
  | i :: rest => mkWeekSummary fd weekKey i (i :: rest)

/-- Embedding of `MemoryCompactor.summarizeInteractions`: group by week key (JS `Map`
iterates keys in first-insertion order; each group holds its members in
list order), then emit one interaction per group. -/
def summarizeInteractions (wk : Int → String) (fd : Int → String)
    (l : List Interaction) : List Interaction :=
  if l.length = 0 then []
  else
    (dedupFirst [] (l.map (fun i => wk i.timestamp))).map (fun k =>
      summarizeGroup fd k (l.filter (fun i => wk i.timestamp = k)))

/-- The `old` interactions surviving the 90-day retention filter
(`compact` line 37). -/
def compactToKeep (now : Int) (old : List Interaction) : List Interaction :=
  old.filter (fun i => now - i.timestamp < maxAge)

/-- The replacement set computed inside `MemoryCompactor.compact` — the
local `final` array (line 47): `recent` plus the weekly summaries,
truncated to the hard cap.  The source computes this list but returns
only its counts; the claims about "the interaction set produced by
compact" are read against this list. -/
def compactKept (wk : Int → String) (fd : Int → String)
    (now : Int) (l : List Interaction) : List Interaction :=
  let sorted := sortNewestFirst l
  let p := splitRecentOld now 0 sorted
  let toKeep := compactToKeep now p.2
  let summarized := summarizeInteractions wk fd toKeep
  (p.1 ++ summarized).take maxInteractions

/-- Embedding of `CompactionResult` from `types.ts`: the only data `compact` returns. -/
structure CompactionResult where
  originalCount : Nat
  compactedCount : Nat
  summarized : Nat
  removed : Nat
deriving DecidableEq, Repr

/-- Embedding of `MemoryCompactor.compact` (lines 16–55). -/
def compact (wk : Int → String) (fd : Int → String)
    (now : Int) (l : List Interaction) : CompactionResult :=
  let sorted := sortNewestFirst l
  let p := splitRecentOld now 0 sorted
  let toKeep := compactToKeep now p.2
  let removed := p.2.length - toKeep.length
  let summarized := summarizeInteractions wk fd toKeep
  let compacted := p.1 ++ summarized
  let final := compacted.take maxInteractions
  { originalCount := l.length
    compactedCount := final.length
    summarized := summarized.length
    removed := removed + (compacted.length - final.length) }

/-- Embedding of `MemoryCompactor.shouldCompact` (lines 138–147). -/
def shouldCompact (now : Int) (l : List Interaction) : Bool :=
  if l.length < maxInteractions then false
  else 20 < (l.filter (fun i => summaryThreshold < now - i.timestamp)).length

/-! ## Indexer (`indexer.ts`) -/

/-- JS `String#includes` on the underlying character lists. -/
def listContains (pat : List Char) : List Char → Bool
  | [] => pat.isEmpty
  | c :: rest => pat.isPrefixOf (c :: rest) || listContains pat rest

/-- JS `String#includes`. -/
def strContains (s pat : String) : Bool :=
  listContains pat.data s.data

/-- JS `String#toLowerCase` (the word lists in the source are ASCII, so
per-character lowering matches). -/
def toLowerStr (s : String) : String :=
  String.mk (s.data.map Char.toLower)

/-- Embedding of `ContactMemoryIndexer.mapChannelType`: unrecognized labels map to
`other`. -/
def mapChannelType (ghlType : String) : Channel :=
  if ghlType = "SMS" then .sms
  else if ghlType = "Email" then .email
  else if ghlType = "WhatsApp" then .whatsapp
  else if ghlType = "Live_Chat" then .webchat
  else .other

/-- Embedding of `ContactMemoryIndexer.summarizeMessage`: first 100 characters, with
a three-character ellipsis marker beyond that. -/
def summarizeMessage (text : String) : String :=
  if text.length ≤ 100 then text else (text.take 97).push '.' |>.push '.' |>.push '.'

/-- The fixed topic taxonomy of `ContactMemoryIndexer.extractTopics`. -/
def topicKeywords : List (String × List String) :=
  [("pricing", ["price", "cost", "pricing", "quote", "estimate", "budget", "expensive", "cheap"]),
   ("scheduling", ["appointment", "schedule", "meeting", "book", "calendar", "available"]),
   ("support", ["help", "issue", "problem", "question", "support", "assist"]),
   ("product", ["product", "service", "feature", "plan", "package"]),
   ("billing", ["bill", "invoice", "payment", "charge", "subscription"])]

/-- Embedding of `ContactMemoryIndexer.extractTopics`: keyword substring match on the
lowercased body; the final `new Set` dedup is a no-op here because each
topic name is pushed at most once. -/
def extractTopics (text : String) : List String :=
  let lower := toLowerStr text
  dedupFirst []
    ((topicKeywords.filter (fun tk => tk.2.any (fun k => strContains lower k))).map (·.1))

/-- Embedding of `ContactMemoryIndexer.analyzeSentiment`: lexicon vote. -/
def analyzeSentiment (text : String) : Sentiment :=
  let lower := toLowerStr text
  let positiveWords := ["thank", "great", "excellent", "perfect", "happy", "love", "amazing"]
  let negativeWords := ["bad", "terrible", "awful", "hate", "frustrated", "angry", "disappointed"]
  let score : Int := (positiveWords.filter (fun w => strContains lower w)).length
    - (negativeWords.filter (fun w => strContains lower w)).length
  if 0 < score then .positive else if score < 0 then .negative else .neutral

/-- A raw `GHLMessage` as consumed by the indexer.  `dateAdded` is
already the parsed epoch-millisecond value of the ISO timestamp. -/
structure GHLMessage where
  id : String
  dateAdded : Int
  mtype : String
  direction : Direction
  body : String
deriving DecidableEq, Repr, Inhabited

/-- Embedding of `ContactMemoryIndexer.indexMessage`; `ee` is the regex-based
`extractEntities`, treated as an uninterpreted function of the body. -/
def indexMessage (ee : String → List ExtractedEntity) (msg : GHLMessage) : Interaction :=
  { id := msg.id
    timestamp := msg.dateAdded
    channel := mapChannelType msg.mtype
    direction := msg.direction
    summary := summarizeMessage msg.body
    fullContent := some msg.body
    entities := ee msg.body
    sentiment := some (analyzeSentiment msg.body)
    topics := extractTopics msg.body }

/-- Embedding of `ContactMemoryIndexer.indexMessages`. -/
def indexMessages (ee : String → List ExtractedEntity) (msgs : List GHLMessage) : List Interaction :=
  msgs.map (indexMessage ee)

/-- The commitment fact built in `extractKeyFacts` (`nanoid` id assigned
afterwards, see `extractKeyFacts`). -/
def mkCommitmentFact (i : Interaction) (clause : String) : KeyFact :=
  { id := ""
    fact := "Commitment: " ++ clause
    source := i.id
    confidence := 7/10
    timestamp := i.timestamp
    category := .commitment }

/-- The preference fact built in `extractKeyFacts`. -/
def mkPreferenceFact (i : Interaction) (clause : String) : KeyFact :=
  { id := ""
    fact := "Preference: " ++ clause
    source := i.id
    confidence := 3/5
    timestamp := i.timestamp
    category := .preference }

/-- The objection fact built in `extractKeyFacts`. -/
def mkObjectionFact (i : Interaction) (word : String) : KeyFact :=
  { id := ""
    fact := "Potential objection mentioned: " ++ word
    source := i.id
    confidence := 1/2
    timestamp := i.timestamp
    category := .objection }

/-- The clause filter applied by `extractKeyFacts` to each trimmed
regex capture: `if (clause && clause.length > 5 && clause.length < 200)`
(JS truthiness of a string is non-emptiness). -/
def clauseAccepted (c : String) : Bool :=
  !(c = "") && decide (5 < c.length) && decide (c.length < 200)

/-- The fixed objection word list of `extractKeyFacts`. -/
def objectionWords : List String :=
  ["but", "however", "concern", "worried", "expensive", "too much"]

/-- The facts produced for one interaction inside the
`extractKeyFacts` loop (lines 200–262): commitment clauses, then
preference clauses, then at most one objection fact (the loop `break`s
after the first objection keyword hit).  `cc`/`pc` are the
commitment/preference `matchAll` capture lists, uninterpreted functions
of the body; a missing `fullContent` yields no matches (`?.` plus
`|| []`). -/
def factsForInteraction (cc pc : String → List String) (i : Interaction) : List KeyFact :=
  let body := i.fullContent
  let commitClauses := (match body with | none => [] | some b => cc b).map String.trim
  let prefClauses := (match body with | none => [] | some b => pc b).map String.trim
  let text := toLowerStr (match body with | none => "" | some b => b)
  ((commitClauses.filter clauseAccepted).map (mkCommitmentFact i))
    ++ ((prefClauses.filter clauseAccepted).map (mkPreferenceFact i))
    ++ (match objectionWords.find? (fun w => strContains text w) with
        | some w => [mkObjectionFact i w]
        | none => [])

/-- Embedding of `ContactMemoryIndexer.extractKeyFacts`: the per-interaction facts in
order; each pushed fact receives the next `nanoid()` value, modelled by
indexing the fresh-id stream `nid` with the fact's ordinal.  The
`contactId` argument is accepted and unused, as in the source. -/
def extractKeyFacts (cc pc : String → List String) (nid : Nat → String)
    (l : List Interaction) (_contactId : String) : List KeyFact :=
  (l.flatMap (factsForInteraction cc pc)).mapIdx (fun k f => { f with id := nid k })

/-! ## Manager-level sentiment aggregate (`index.ts`) -/

/-- Embedding of `ContactMemoryManager.calculateOverallSentiment` (lines 329–346):
majority vote over the first ten interactions' present sentiments
(`filter(Boolean)` drops absent ones; the three sentiment strings are
all truthy). -/
def calculateOverallSentiment (l : List Interaction) : Sentiment :=
  let sentiments := (l.take 10).filterMap Interaction.sentiment
  if sentiments.length = 0 then .neutral
  else
    let pos := (sentiments.filter (· = .positive)).length
    let neg := (sentiments.filter (· = .negative)).length
    if neg < pos then .positive
    else if pos < neg then .negative
    else .neutral

/-- Modelled from the spec: "majority vote; ties default to neutral" —
the side with strictly more votes between positive and negative wins,
anything else (including no votes) is neutral. -/
def majorityVote (votes : List Sentiment) : Sentiment :=
  if votes.count .negative < votes.count .positive then .positive
  else if votes.count .positive < votes.count .negative then .negative
  else .neutral

/-! ## Retrieval (`retrieval.ts`) -/

/-- The recency term of `MemoryRetrieval.calculateRelevance` (lines
221–223): `0.5 * (1 - Math.min(age / maxAge, 1))`. -/
def relevanceRecency (now : Int) (i : Interaction) : ℚ :=
  (1/2) * (1 - min (((now - i.timestamp : Int) : ℚ) / ((maxAge : Int) : ℚ)) 1)

/-- The score after the topic-relevance step of `calculateRelevance`
(lines 226–229): `0.3 * (overlap / currentTopics.length)` is added only
when both topic lists are nonempty. -/
def relevanceWithTopics (now : Int) (i : Interaction) (ct : List String) : ℚ :=
  if ct.length ≠ 0 ∧ i.topics.length ≠ 0 then
    relevanceRecency now i
      + (3/10) * (((i.topics.filter (fun t => t ∈ ct)).length : ℚ) / (ct.length : ℚ))
  else relevanceRecency now i

/-- Embedding of `MemoryRetrieval.calculateRelevance` (lines 217–236), with the float
arithmetic carried out in `ℚ`: the two sentiment `if`s of the source
run in sequence (they can never both fire). -/
def calculateRelevance (now : Int) (i : Interaction) (ct : List String) : ℚ :=
  if i.sentiment = some .negative then
    (if i.sentiment = some .positive then relevanceWithTopics now i ct + 1/5
     else relevanceWithTopics now i ct) + 1/10
  else
    (if i.sentiment = some .positive then relevanceWithTopics now i ct + 1/5
     else relevanceWithTopics now i ct)

/-- Modelled from the spec: the `topicOverlapFraction` of the relevance
formula (share of the current topics matched; zero when there are no
current topics). -/
def topicOverlapFraction (i : Interaction) (currentTopics : List String) : ℚ :=
  if currentTopics.length = 0 then 0
  else ((i.topics.filter (fun t => t ∈ currentTopics)).length : ℚ) / (currentTopics.length : ℚ)

/-- Modelled from the spec: the sentiment bonus of the relevance
formula. -/
def sentimentBonus (i : Interaction) : ℚ :=
  match i.sentiment with
  | some .positive => 1/5
  | some .negative => 1/10
  | _ => 0

/-! ## Store (`schema.ts` tables + the Store methods of `index.ts`)

The three SQLite tables are lists of row records.  JSON-serialized
columns keep their structured values (serialization is a representation
detail with no observable effect on the embedded operations). `INSERT`
into a table whose `PRIMARY KEY` value is already present throws in the
source; each statement runs immediately (no transaction), so a failing
insert leaves the rows already inserted in place.  Operations return the
resulting database together with a success flag. -/

/-- Embedding of `metadata` JSON payload of a `contact_memory` row. -/
structure ContactMetadata where
  name : String
  tags : List String
  source : String
  firstSeen : Int
  lastSeen : Int
deriving DecidableEq, Repr, Inhabited

/-- One entry of `SentimentAnalysis.history`. -/
structure SentimentPoint where
  timestamp : Int
  sentiment : Sentiment
  score : Int
deriving DecidableEq, Repr, Inhabited

/-- Embedding of `SentimentAnalysis` from `types.ts`. -/
structure SentimentAnalysis where
  overall : Sentiment
  history : List SentimentPoint
deriving DecidableEq, Repr, Inhabited

/-- Embedding of `ContactMemoryEntry` from `types.ts` (preferences as a string map,
modelled as an association list). -/
structure ContactMemoryEntry where
  contactId : String
  locationId : String
  lastUpdated : Int
  metadata : ContactMetadata
  interactions : List Interaction
  keyFacts : List KeyFact
  preferences : List (String × String)
  sentiment : SentimentAnalysis
deriving DecidableEq, Repr, Inhabited

/-- A `contact_memory` row (`contact_id` is the PRIMARY KEY). -/
structure ContactRow where
  contact_id : String
  location_id : String
  last_updated : Int
  metadata : ContactMetadata
  preferences : List (String × String)
  sentiment : SentimentAnalysis
  created_at : Int
deriving DecidableEq, Repr, Inhabited

/-- An `interactions` row (`id` is the PRIMARY KEY — global, not
per-contact). -/
structure InterRow where
  id : String
  contact_id : String
  timestamp : Int
  channel : Channel
  direction : Direction
  summary : String
  full_content : Option String
  entities : List ExtractedEntity
  sentiment : Option Sentiment
  topics : List String
deriving DecidableEq, Repr, Inhabited

/-- A `key_facts` row (`id` is the PRIMARY KEY). -/
structure FactRow where
  id : String
  contact_id : String
  fact : String
  source : String
  confidence : ℚ
  timestamp : Int
  category : FactCategory
deriving DecidableEq, Repr, Inhabited

/-- The initialized database (the `db === null` / `StoreNotInitialized`
state is ruled out by construction: every operation below acts on an
initialized handle, as after `initialize()`).  The schema declares
foreign keys but the source never issues `PRAGMA foreign_keys = ON`, so
SQLite does not enforce them; the model therefore enforces only the
primary keys. -/
structure Db where
  contact_memory : List ContactRow
  interactions : List InterRow
  key_facts : List FactRow
deriving DecidableEq, Repr, Inhabited

/-- The interaction row written by `storeContactMemory` /
`addInteraction` (`interaction.fullContent || null` and
`interaction.sentiment || null` store absent values as NULL). -/
def interRowOf (cid : String) (i : Interaction) : InterRow :=
  { id := i.id
    contact_id := cid
    timestamp := i.timestamp
    channel := i.channel
    direction := i.direction
    summary := i.summary
    full_content := i.fullContent
    entities := i.entities
    sentiment := i.sentiment
    topics := i.topics }

/-- The key-fact row written by `storeContactMemory`. -/
def factRowOf (cid : String) (f : KeyFact) : FactRow :=
  { id := f.id
    contact_id := cid
    fact := f.fact
    source := f.source
    confidence := f.confidence
    timestamp := f.timestamp
    category := f.category }

/-- Embedding of `INSERT OR REPLACE INTO contact_memory`: drop a conflicting row,
then insert. -/
def upsertContactRow (db : Db) (r : ContactRow) : Db :=
  { db with contact_memory :=
      (db.contact_memory.filter (fun c => c.contact_id ≠ r.contact_id)) ++ [r] }

/-- Embedding of `INSERT INTO interactions`: fails on a PRIMARY KEY conflict. -/
def insertInterRow (db : Db) (r : InterRow) : Db × Bool :=
  if db.interactions.any (fun x => x.id = r.id) then (db, false)
  else ({ db with interactions := db.interactions ++ [r] }, true)

/-- Insert interaction rows one statement at a time; the first failure
aborts the loop (an exception propagates), keeping earlier inserts. -/
def insertInterRows (db : Db) : List InterRow → Db × Bool
  | [] => (db, true)
  | r :: rest =>
      let p := insertInterRow db r
      if p.2 then insertInterRows p.1 rest else (p.1, false)

/-- Embedding of `INSERT INTO key_facts`: fails on a PRIMARY KEY conflict. -/
def insertFactRow (db : Db) (r : FactRow) : Db × Bool :=
  if db.key_facts.any (fun x => x.id = r.id) then (db, false)
  else ({ db with key_facts := db.key_facts ++ [r] }, true)

/-- Insert key-fact rows one statement at a time, aborting on the first
failure. -/
def insertFactRows (db : Db) : List FactRow → Db × Bool
  | [] => (db, true)
  | r :: rest =>
      let p := insertFactRow db r
      if p.2 then insertFactRows p.1 rest else (p.1, false)

/-- Embedding of `ContactMemoryManager.storeContactMemory` (lines 156–219): upsert
the entry row, delete the contact's interaction and fact rows, then
insert the new sets. -/
def storeContactMemory (db : Db) (m : ContactMemoryEntry) : Db × Bool :=
  let db := upsertContactRow db
    { contact_id := m.contactId
      location_id := m.locationId
      last_updated := m.lastUpdated
      metadata := m.metadata
      preferences := m.preferences
      sentiment := m.sentiment
      created_at := m.metadata.firstSeen }
  let db := { db with
    interactions := db.interactions.filter (fun r => r.contact_id ≠ m.contactId)
    key_facts := db.key_facts.filter (fun r => r.contact_id ≠ m.contactId) }
  let p := insertInterRows db (m.interactions.map (interRowOf m.contactId))
  if p.2 then insertFactRows p.1 (m.keyFacts.map (factRowOf m.contactId))
  else (p.1, false)

/-- Insertion step of the `ORDER BY timestamp DESC` model. -/
def insertRowByTs (a : InterRow) : List InterRow → List InterRow
  | [] => [a]
  | x :: rest =>
      if x.timestamp ≤ a.timestamp then a :: x :: rest else x :: insertRowByTs a rest

/-- Embedding of `ORDER BY timestamp DESC` on the interactions read-back (stable
insertion-sort model; SQLite's ordering among equal keys is unspecified,
and no claim depends on it). -/
def sortRowsNewestFirst : List InterRow → List InterRow
  | [] => []
  | a :: rest => insertRowByTs a (sortRowsNewestFirst rest)

/-- Insertion step of the `ORDER BY confidence DESC` model. -/
def insertRowByConf (a : FactRow) : List FactRow → List FactRow
  | [] => [a]
  | x :: rest =>
      if x.confidence ≤ a.confidence then a :: x :: rest else x :: insertRowByConf a rest

/-- Embedding of `ORDER BY confidence DESC` on the key-facts read-back. -/
def sortRowsByConfidence : List FactRow → List FactRow
  | [] => []
  | a :: rest => insertRowByConf a (sortRowsByConfidence rest)

/-- Embedding of `ContactMemoryManager.getContactMemory` (lines 224–270): `none` when
the contact has no `contact_memory` row; otherwise the entry rebuilt
from the three tables. -/
def getContactMemory (db : Db) (contactId : String) : Option ContactMemoryEntry :=
  match db.contact_memory.find? (fun r => r.contact_id = contactId) with
  | none => none
  | some row =>
      let inters := sortRowsNewestFirst
        (db.interactions.filter (fun r => r.contact_id = contactId))
      let facts := sortRowsByConfidence
        (db.key_facts.filter (fun r => r.contact_id = contactId))
      some
        { contactId := row.contact_id
          locationId := row.location_id
          lastUpdated := row.last_updated
          metadata := row.metadata
          interactions := inters.map (fun r =>
            { id := r.id
              timestamp := r.timestamp
              channel := r.channel
              direction := r.direction
              summary := r.summary
              fullContent := r.full_content
              entities := r.entities
              sentiment := r.sentiment
              topics := r.topics })
          keyFacts := facts.map (fun r =>
            { id := r.id
              fact := r.fact
              source := r.source
              confidence := r.confidence
              timestamp := r.timestamp
              category := r.category })
          preferences := row.preferences
          sentiment := row.sentiment }

/-- Embedding of `ContactMemoryManager.addInteraction` (lines 298–324): insert the
single interaction row (no entry-existence check — the schema's foreign
key is not enforced), then bump `last_updated` on whatever
`contact_memory` rows match (possibly none). -/
def addInteraction (db : Db) (contactId : String) (i : Interaction) (now : Int) : Db × Bool :=
  let p := insertInterRow db (interRowOf contactId i)
  if p.2 then
    ({ p.1 with contact_memory := p.1.contact_memory.map (fun r =>
        if r.contact_id = contactId then { r with last_updated := now } else r) }, true)
  else (p.1, false)

/-! ## `syncContactFromGHL` (`index.ts` lines 88–151)

The GHL fetch (`buildContactContext` / `getAllContactMessages`) is the
external message source; the fetched batch is the `messages` argument
(the spec's `syncFromSource(contactId, raw messages)`).  `contactName`
and `prefs` stand for the values taken from the fetched GHL context. -/

/-- The interaction set `syncContactFromGHL` passes to the Store: when
`shouldCompact` holds, the source calls `compact` (which sorts the array
in place, newest first) and then keeps
`interactions.slice(0, result.compactedCount)` — a prefix of the sorted
original array, not the replacement set `compact` computed internally. -/
def syncFinalInteractions (wk fd : Int → String) (now : Int)
    (interactions : List Interaction) : List Interaction :=
  if shouldCompact now interactions then
    (sortNewestFirst interactions).take (compact wk fd now interactions).compactedCount
  else interactions

/-- The `SentimentAnalysis` built in `syncContactFromGHL` (lines
112–122). -/
def syncSentiment (interactions : List Interaction) : SentimentAnalysis :=
  { overall := calculateOverallSentiment interactions
    history := (interactions.filterMap (fun i =>
      i.sentiment.map (fun s =>
        { timestamp := i.timestamp
          sentiment := s
          score := match s with
            | .positive => 1
            | .negative => -1
            | .neutral => 0 }))).take 20 }

/-- Embedding of `ContactMemoryManager.syncContactFromGHL`, from the fetched batch
onward: index the messages, extract facts, conditionally compact, and
write the entry. -/
def syncFromSource (wk fd : Int → String) (ee : String → List ExtractedEntity)
    (cc pc : String → List String) (nid : Nat → String)
    (db : Db) (locationId contactId : String) (now : Int)
    (messages : List GHLMessage) (contactName : String)
    (prefs : List (String × String)) : Db × Bool :=
  let interactions := indexMessages ee messages
  let keyFacts := extractKeyFacts cc pc nid interactions contactId
  let finalInteractions := syncFinalInteractions wk fd now interactions
  storeContactMemory db
    { contactId := contactId
      locationId := locationId
      lastUpdated := now
      metadata :=
        { name := contactName
          tags := []
          source := "ghl"
          firstSeen := now
          lastSeen := now }
      interactions := finalInteractions
      keyFacts := keyFacts
      preferences := prefs
      sentiment := syncSentiment interactions }

/-! ## Shared helpers for the theorems -/

/-- A concrete interaction with the given id, timestamp and sentiment,
used for the concrete inputs below. -/
def exInteraction (n : String) (ts : Int) (s : Option Sentiment) : Interaction :=
  { id := n
    timestamp := ts
    channel := .sms
    direction := .inbound
    summary := ""
    fullContent := none
    entities := []
    sentiment := s
    topics := [] }

theorem count_eq_length_filter (s : Sentiment) (votes : List Sentiment) :
    votes.count s = (votes.filter (· = s)).length := by
  induction votes with
  | nil => rfl
  | cons a l ih =>
      by_cases h : a = s
      · subst h
        simp [List.count_cons, List.filter_cons, ih]
      · simp [List.count_cons, List.filter_cons, h, ih]

theorem filter_over_map {α β : Type} (p : β → Bool) (f : α → β) (l : List α) :
    (l.map f).filter p = (l.filter (fun a => p (f a))).map f := by
  induction l with
  | nil => rfl
  | cons a t ih =>
      by_cases h : p (f a) <;> simp [List.filter_cons, h, ih]

theorem clauseAccepted_iff (c : String) :
    clauseAccepted c = true ↔ (6 ≤ c.length ∧ c.length < 200) := by
  unfold clauseAccepted
  simp only [Bool.and_eq_true, Bool.not_eq_true', decide_eq_true_eq,
    decide_eq_false_iff_not]
  constructor
  · rintro ⟨⟨_, h5⟩, h200⟩
    exact ⟨by omega, h200⟩
  · rintro ⟨h6, h200⟩
    refine ⟨⟨?_, by omega⟩, h200⟩
    intro h
    subst h
    simp at h6

theorem filter_clauseAccepted (L : List String) :
    L.filter clauseAccepted
      = L.filter (fun c => decide (6 ≤ c.length ∧ c.length < 200)) := by
  apply List.filter_congr
  intro c _
  rw [Bool.eq_iff_iff, clauseAccepted_iff, decide_eq_true_eq]

theorem filter_cat_map {α : Type} (mk : α → KeyFact) (cat cat' : FactCategory)
    (hmk : ∀ a, (mk a).category = cat') (L : List α) :
    ((L.map mk).filter (fun f => f.category = cat))
      = if cat' = cat then L.map mk else [] := by
  rw [filter_over_map]
  by_cases h : cat' = cat
  · subst h
    rw [if_pos rfl, List.filter_eq_self.mpr]
    intro a _
    simp [hmk]
  · rw [if_neg h, List.map_eq_nil_iff.mpr]
    rw [List.filter_eq_nil_iff]
    intro a _
    simp [hmk]
    exact fun hc => h hc

theorem mem_mapIdx_ex {β γ : Type} (g : Nat → β → γ) (L : List β) (x : γ)
    (hx : x ∈ L.mapIdx g) : ∃ k b, b ∈ L ∧ x = g k b := by
  induction L generalizing g with
  | nil => simp at hx
  | cons a t ih =>
      rw [List.mapIdx_cons] at hx
      rcases List.mem_cons.1 hx with h | h
      · exact ⟨0, a, List.mem_cons_self a t, h⟩
      · rcases ih _ h with ⟨k, b, hb, hxe⟩
        exact ⟨k + 1, b, List.mem_cons_of_mem a hb, hxe⟩

/-! ## Claims -/

/-- C7: fact extraction accepts a commitment or preference clause
exactly when its (trimmed) length lies in [6, 200); confidence is fixed
per pattern family (commitment 0.7, preference 0.6, objection 0.5); at
most one objection fact is emitted per interaction. -/
theorem c7_extract_key_facts (cc pc : String → List String) (nid : Nat → String)
    (l : List Interaction) (cid : String) (i : Interaction) :
    ((factsForInteraction cc pc i).filter
        (fun f => f.category = FactCategory.commitment)
      = (((match i.fullContent with | none => ([] : List String) | some b => cc b).map
            String.trim).filter
          (fun c : String => decide (6 ≤ c.length ∧ c.length < 200))).map (mkCommitmentFact i))
    ∧ ((factsForInteraction cc pc i).filter
        (fun f => f.category = FactCategory.preference)
      = (((match i.fullContent with | none => ([] : List String) | some b => pc b).map
            String.trim).filter
          (fun c : String => decide (6 ≤ c.length ∧ c.length < 200))).map (mkPreferenceFact i))
    ∧ ((factsForInteraction cc pc i).countP
        (fun f => f.category = FactCategory.objection) ≤ 1)
    ∧ (∀ f ∈ extractKeyFacts cc pc nid l cid,
        (f.category = FactCategory.commitment → f.confidence = 7/10)
        ∧ (f.category = FactCategory.preference → f.confidence = 3/5)
        ∧ (f.category = FactCategory.objection → f.confidence = 1/2)) := by
  have hparts : ∀ j : Interaction, ∀ g ∈ factsForInteraction cc pc j,
      (g.category = FactCategory.commitment ∧ g.confidence = 7/10)
      ∨ (g.category = FactCategory.preference ∧ g.confidence = 3/5)
      ∨ (g.category = FactCategory.objection ∧ g.confidence = 1/2) := by
    intro j g hg
    unfold factsForInteraction at hg
    rcases List.mem_append.1 hg with hg' | hobj
    · rcases List.mem_append.1 hg' with hcom | hpref
      · rcases List.mem_map.1 hcom with ⟨c, _, rfl⟩
        exact Or.inl ⟨rfl, rfl⟩
      · rcases List.mem_map.1 hpref with ⟨c, _, rfl⟩
        exact Or.inr (Or.inl ⟨rfl, rfl⟩)
    · rcases hfind : objectionWords.find? (fun w =>
        strContains (toLowerStr (match j.fullContent with | none => "" | some b => b)) w) with _ | w
      · rw [hfind] at hobj
        simp at hobj
      · rw [hfind] at hobj
        simp at hobj
        subst hobj
        exact Or.inr (Or.inr ⟨rfl, rfl⟩)
  have hsingle : ∀ (w : String) (cat : FactCategory),
      ([mkObjectionFact i w].filter (fun f => f.category = cat))
        = if FactCategory.objection = cat then [mkObjectionFact i w] else [] := by
    intro w cat
    have h : [mkObjectionFact i w] = [w].map (mkObjectionFact i) := rfl
    rw [h, filter_cat_map (mkObjectionFact i) _ _ (fun _ => rfl)]
  refine ⟨?_, ?_, ?_, ?_⟩
  · rcases hfind : objectionWords.find? (fun w =>
        strContains (toLowerStr (match i.fullContent with | none => "" | some b => b)) w)
      with _ | w <;>
    · simp only [factsForInteraction, hfind]
      rw [← filter_clauseAccepted, List.filter_append, List.filter_append,
        filter_cat_map (mkCommitmentFact i) _ _ (fun _ => rfl),
        filter_cat_map (mkPreferenceFact i) _ _ (fun _ => rfl)]
      simp [hsingle]
  · rcases hfind : objectionWords.find? (fun w =>
        strContains (toLowerStr (match i.fullContent with | none => "" | some b => b)) w)
      with _ | w <;>
    · simp only [factsForInteraction, hfind]
      rw [← filter_clauseAccepted, List.filter_append, List.filter_append,
        filter_cat_map (mkCommitmentFact i) _ _ (fun _ => rfl),
        filter_cat_map (mkPreferenceFact i) _ _ (fun _ => rfl)]
      simp [hsingle]
  · rcases hfind : objectionWords.find? (fun w =>
        strContains (toLowerStr (match i.fullContent with | none => "" | some b => b)) w)
      with _ | w <;>
    · simp only [factsForInteraction, hfind]
      rw [List.countP_eq_length_filter, List.filter_append, List.filter_append,
        filter_cat_map (mkCommitmentFact i) _ _ (fun _ => rfl),
        filter_cat_map (mkPreferenceFact i) _ _ (fun _ => rfl)]
      simp [hsingle]
  · intro f hf
    unfold extractKeyFacts at hf
    rcases mem_mapIdx_ex _ _ _ hf with ⟨k, b, hb, rfl⟩
    rcases List.mem_flatMap.1 hb with ⟨j, _, hbj⟩
    have hcat : (({ b with id := nid k } : KeyFact)).category = b.category := rfl
    have hconf : (({ b with id := nid k } : KeyFact)).confidence = b.confidence := rfl
    rw [hcat, hconf]
    rcases hparts j b hbj with ⟨hc, hv⟩ | ⟨hc, hv⟩ | ⟨hc, hv⟩ <;>
      refine ⟨fun h => ?_, fun h => ?_, fun h => ?_⟩ <;>
      first
        | exact hv
        | (rw [hc] at h; simp at h)

/-- C5: `shouldCompact` returns true iff the interaction count is at
least 100 and the count of interactions older than 30 days exceeds 20;
in particular it is false whenever the count is below 100. -/
theorem c5_shouldCompact_iff (now : Int) (l : List Interaction) :
    (shouldCompact now l = true ↔
      (100 ≤ l.length ∧
        20 < (l.filter (fun i => summaryThreshold < now - i.timestamp)).length))
    ∧ (l.length < 100 → shouldCompact now l = false) := by
  unfold shouldCompact maxInteractions
  constructor
  · split
    · simp; omega
    · simp; omega
  · intro h
    split
    · rfl
    · omega

/-- C6: the overall sentiment aggregate is the majority vote over the
sentiments of the first ten (most recent, the call sites supply
newest-first lists) interactions, ties — including the empty case —
defaulting to neutral; `[positive, positive, negative]` aggregates to
positive and `[positive, negative]` to neutral. -/
theorem c6_overall_sentiment :
    (∀ l : List Interaction,
      calculateOverallSentiment l = majorityVote ((l.take 10).filterMap Interaction.sentiment))
    ∧ majorityVote [] = .neutral
    ∧ calculateOverallSentiment
        [exInteraction "a" 3 (some .positive), exInteraction "b" 2 (some .positive),
         exInteraction "c" 1 (some .negative)] = .positive
    ∧ calculateOverallSentiment
        [exInteraction "a" 2 (some .positive), exInteraction "b" 1 (some .negative)]
        = .neutral := by
  refine ⟨?_, by decide, by decide, by decide⟩
  intro l
  unfold calculateOverallSentiment majorityVote
  rw [count_eq_length_filter, count_eq_length_filter]
  set sentiments := (l.take 10).filterMap Interaction.sentiment with hs
  by_cases h : sentiments.length = 0
  · rw [List.length_eq_zero] at h
    simp [h]
  · simp [h]

/-- C8 (amended): `calculateRelevance` always equals
`0.5 * (1 − min(age/90d, 1)) + 0.3 * topicOverlapFraction + sentimentBonus`;
the score lies in [0, 1] provided the interaction's timestamp is not in
the future and its topic list has no duplicates (for a future timestamp
the recency term exceeds 0.5, and the source's `[0,1]` reading fails —
see the counterexample). -/
theorem c8_relevance (now : Int) (i : Interaction) (ct : List String) :
    (calculateRelevance now i ct
      = 1/2 * (1 - min (((now - i.timestamp : Int) : ℚ) / ((maxAge : Int) : ℚ)) 1)
        + 3/10 * topicOverlapFraction i ct + sentimentBonus i)
    ∧ (0 ≤ now - i.timestamp → i.topics.Nodup →
        0 ≤ calculateRelevance now i ct ∧ calculateRelevance now i ct ≤ 1) := by
  have hTopics : relevanceWithTopics now i ct
      = relevanceRecency now i + 3/10 * topicOverlapFraction i ct := by
    unfold relevanceWithTopics topicOverlapFraction
    by_cases h1 : ct.length = 0
    · simp [h1]
    · by_cases h2 : i.topics.length = 0
      · have h2' : i.topics = [] := List.length_eq_zero.1 h2
        simp [h1, h2, h2']
      · simp [h1, h2]
  have hformula : calculateRelevance now i ct
      = 1/2 * (1 - min (((now - i.timestamp : Int) : ℚ) / ((maxAge : Int) : ℚ)) 1)
        + 3/10 * topicOverlapFraction i ct + sentimentBonus i := by
    unfold calculateRelevance
    rw [show (1:ℚ)/2 * (1 - min (((now - i.timestamp : Int) : ℚ) / ((maxAge : Int) : ℚ)) 1)
        = relevanceRecency now i from rfl]
    rcases hs : i.sentiment with _ | s
    · simp [hs, hTopics, sentimentBonus]
    · cases s <;> simp [hs, hTopics, sentimentBonus]
  refine ⟨hformula, fun hage hnd => ?_⟩
  rw [hformula]
  have hageQ : (0 : ℚ) ≤ ((now - i.timestamp : Int) : ℚ) := by
    exact_mod_cast hage
  have hmaxQ : (0 : ℚ) < ((maxAge : Int) : ℚ) := by norm_num [maxAge]
  set m : ℚ := min (((now - i.timestamp : Int) : ℚ) / ((maxAge : Int) : ℚ)) 1 with hm
  have hm0 : 0 ≤ m := le_min (div_nonneg hageQ hmaxQ.le) (by norm_num)
  have hm1 : m ≤ 1 := min_le_right _ _
  have hfrac0 : 0 ≤ topicOverlapFraction i ct := by
    unfold topicOverlapFraction
    split
    · exact le_refl 0
    · positivity
  have hfrac1 : topicOverlapFraction i ct ≤ 1 := by
    unfold topicOverlapFraction
    split
    · norm_num
    · rename_i hct
      rw [div_le_one (by positivity)]
      have hsub : (i.topics.filter (fun t => t ∈ ct)) ⊆ ct := by
        intro t ht
        have := List.of_mem_filter ht
        simpa using this
      have hlen : (i.topics.filter (fun t => t ∈ ct)).length ≤ ct.length :=
        ((hnd.filter _).subperm hsub).length_le
      exact_mod_cast hlen
  have hsb0 : 0 ≤ sentimentBonus i := by
    unfold sentimentBonus
    rcases i.sentiment with _ | s
    · norm_num
    · cases s <;> norm_num
  have hsb1 : sentimentBonus i ≤ 1/5 := by
    unfold sentimentBonus
    rcases i.sentiment with _ | s
    · norm_num
    · cases s <;> norm_num
  have ht : 3/10 * topicOverlapFraction i ct ≤ 3/10 * 1 :=
    mul_le_mul_of_nonneg_left hfrac1 (by norm_num)
  constructor
  · have : 0 ≤ 1/2 * (1 - m) := by nlinarith
    nlinarith
  · nlinarith

/-- C8 counterexample: for an interaction whose timestamp lies 90 days
in the future of `now` (age = −90d) with positive sentiment, the score
is 0.5·(1−(−1)) + 0.2 = 1.2 > 1, so the claim's unconditional "score
always lies in [0, 1]" is false on the code. -/
theorem c8_relevance_counterexample :
    1 < calculateRelevance 0 (exInteraction "future" maxAge (some .positive)) [] := by
  norm_num [calculateRelevance, relevanceWithTopics, relevanceRecency,
    exInteraction, maxAge]
  norm_num [show (Sentiment.positive = Sentiment.negative) = False by simp]

/-- C8 witness: a concrete in-range instance of the amended theorem. -/
theorem c8_relevance_witness :
    calculateRelevance 0 (exInteraction "w8" 0 (some .positive)) []
      = 1/2 * (1 - min (((0 - (exInteraction "w8" 0 (some .positive)).timestamp : Int) : ℚ)
          / ((maxAge : Int) : ℚ)) 1)
        + 3/10 * topicOverlapFraction (exInteraction "w8" 0 (some .positive)) []
        + sentimentBonus (exInteraction "w8" 0 (some .positive))
    ∧ 0 ≤ calculateRelevance 0 (exInteraction "w8" 0 (some .positive)) []
    ∧ calculateRelevance 0 (exInteraction "w8" 0 (some .positive)) [] ≤ 1 := by
  have h := c8_relevance 0 (exInteraction "w8" 0 (some .positive)) []
  refine ⟨h.1, h.2 ?_ ?_⟩
  · norm_num [exInteraction]
  · simp [exInteraction]

/-! ## Compaction retention and week summaries (C3, C4) -/

/-- The `recent` partition computed inside `compact` — the recency
floor: interactions younger than 30 days plus enough of the newest ones
to reach 20, in sorted order. -/
def compactRecent (now : Int) (l : List Interaction) : List Interaction :=
  (splitRecentOld now 0 (sortNewestFirst l)).1

/-- Constant week-key/date instantiations used for concrete inputs (any
host timezone maps timestamps of the same week to one key, so a constant
key realizes a single-week grouping). -/
def wkC : Int → String := fun _ => "W"

def fdC : Int → String := fun _ => "D"

theorem mem_of_dedupFirst {α : Type} [DecidableEq α] {seen L : List α} {x : α}
    (h : x ∈ dedupFirst seen L) : x ∈ L := by
  induction L generalizing seen with
  | nil => simp [dedupFirst] at h
  | cons a t ih =>
      rw [dedupFirst] at h
      by_cases ha : a ∈ seen
      · rw [if_pos ha] at h
        exact List.mem_cons_of_mem a (ih h)
      · rw [if_neg ha] at h
        rcases List.mem_cons.1 h with h' | h'
        · exact h' ▸ List.mem_cons_self a t
        · exact List.mem_cons_of_mem a (ih h')

theorem mem_dedupFirst {α : Type} [DecidableEq α] {seen L : List α} {x : α}
    (hx : x ∈ L) (hs : x ∉ seen) : x ∈ dedupFirst seen L := by
  induction L generalizing seen with
  | nil => simp at hx
  | cons a t ih =>
      rw [dedupFirst]
      by_cases ha : a ∈ seen
      · rw [if_pos ha]
        rcases List.mem_cons.1 hx with h' | h'
        · exact absurd (h' ▸ ha) hs
        · exact ih h' hs
      · rw [if_neg ha]
        rcases List.mem_cons.1 hx with h' | h'
        · exact h' ▸ List.mem_cons_self a _
        · by_cases hxa : x = a
          · exact hxa ▸ List.mem_cons_self a _
          · refine List.mem_cons_of_mem a (ih h' ?_)
            intro hmem
            rcases List.mem_cons.1 hmem with h'' | h''
            · exact hxa h''
            · exact hs h''

theorem determineOverallSentiment_eq_majorityVote (v : List Sentiment) :
    determineOverallSentiment v = majorityVote v := by
  unfold determineOverallSentiment majorityVote
  rw [count_eq_length_filter, count_eq_length_filter]
  by_cases h : v.length = 0
  · rw [if_pos h]
    rw [List.length_eq_zero] at h
    subst h
    simp
  · rw [if_neg h]

/-- Every output of `summarizeInteractions` carries the timestamp of
some member of its input (a singleton passes through; a summary reuses
its group's first member's timestamp). -/
theorem summarize_timestamp_mem (wk fd : Int → String) (l : List Interaction)
    (j : Interaction) (hj : j ∈ summarizeInteractions wk fd l) :
    ∃ m ∈ l, j.timestamp = m.timestamp := by
  unfold summarizeInteractions at hj
  by_cases h0 : l.length = 0
  · rw [if_pos h0] at hj
    simp at hj
  · rw [if_neg h0] at hj
    rcases List.mem_map.1 hj with ⟨k, hk, rfl⟩
    rcases List.mem_map.1 (mem_of_dedupFirst hk) with ⟨m0, hm0, hfm0⟩
    have hm0f : m0 ∈ l.filter (fun i => wk i.timestamp = k) :=
      List.mem_filter.2 ⟨hm0, by simp [hfm0]⟩
    cases hg : l.filter (fun i => wk i.timestamp = k) with
    | nil =>
        rw [hg] at hm0f
        simp at hm0f
    | cons a t =>
        cases t with
        | nil =>
            have haf : a ∈ l.filter (fun i => wk i.timestamp = k) := by
              rw [hg]
              exact List.mem_cons_self _ _
            exact ⟨a, List.mem_of_mem_filter haf, rfl⟩
        | cons b t' =>
            have haf : a ∈ l.filter (fun i => wk i.timestamp = k) := by
              rw [hg]
              exact List.mem_cons_self _ _
            exact ⟨a, List.mem_of_mem_filter haf, rfl⟩

/-- C3 (amended): the set produced by `compact` contains no interaction
older than 90 days **from the old partition**: any kept interaction at
least 90 days old is one of the `recent` (recency-floor) members, which
survive regardless of age; old-partition interactions beyond 90 days are
dropped (and counted in `removed`). -/
theorem c3_retention (wk fd : Int → String) (now : Int) (l : List Interaction)
    (i : Interaction) (hmem : i ∈ compactKept wk fd now l)
    (hold : maxAge ≤ now - i.timestamp) :
    i ∈ compactRecent now l := by
  simp only [compactKept] at hmem
  rcases List.mem_append.1 (List.mem_of_mem_take hmem) with hr | hs
  · exact hr
  · exfalso
    rcases summarize_timestamp_mem _ _ _ _ hs with ⟨m, hm, ht⟩
    unfold compactToKeep at hm
    have hlt := (List.mem_filter.1 hm).2
    simp only [decide_eq_true_eq] at hlt
    rw [ht] at hold
    omega

/-- C3 counterexample: a single interaction 100 days old is kept by
`compact` (it is within the 20-newest recency floor), so the claim
"the output contains no interaction older than 90 days" is false on the
code. -/
theorem c3_retention_counterexample :
    maxAge ≤ (8640000000 : Int) - (exInteraction "old1" 0 none).timestamp
    ∧ exInteraction "old1" 0 none
        ∈ compactKept wkC fdC 8640000000 [exInteraction "old1" 0 none] := by
  constructor
  · decide
  · decide

/-- C3 witness: the amended theorem applied to the 100-day-old
singleton. -/
theorem c3_retention_witness :
    exInteraction "old1" 0 none
        ∈ compactKept wkC fdC 8640000000 [exInteraction "old1" 0 none]
    ∧ maxAge ≤ (8640000000 : Int) - (exInteraction "old1" 0 none).timestamp
    ∧ exInteraction "old1" 0 none ∈ compactRecent 8640000000 [exInteraction "old1" 0 none] :=
  ⟨by decide, by decide,
    c3_retention wkC fdC 8640000000 [exInteraction "old1" 0 none]
      (exInteraction "old1" 0 none) (by decide) (by decide)⟩

/-- C4 (amended): each week-group of the compaction input yields exactly
one output (output count = number of distinct week keys); a group with
at least two members is replaced by one synthesized summary whose id is
the deterministic `summary_<weekKey>`, whose topics are the union of the
members' topics (in first-occurrence order), whose sentiment is the
majority vote across the group (ties → neutral), and whose timestamp
equals the **first** member's timestamp — the group's *most recent*
member, since `compact` feeds the groups newest-first (the claim's
"earliest member" is refuted by the counterexample); a singleton group
passes through unmodified. -/
theorem c4_week_summary (wk fd : Int → String) (l : List Interaction) (k : String)
    (i0 : Interaction) (g1 : List Interaction)
    (hg : l.filter (fun i => wk i.timestamp = k) = i0 :: g1) :
    ((summarizeInteractions wk fd l).length
        = (dedupFirst [] (l.map (fun i => wk i.timestamp))).length)
    ∧ (g1 = [] → i0 ∈ summarizeInteractions wk fd l)
    ∧ (g1 ≠ [] →
        mkWeekSummary fd k i0 (i0 :: g1) ∈ summarizeInteractions wk fd l
        ∧ (mkWeekSummary fd k i0 (i0 :: g1)).id = "summary_" ++ k
        ∧ (mkWeekSummary fd k i0 (i0 :: g1)).timestamp = i0.timestamp
        ∧ (mkWeekSummary fd k i0 (i0 :: g1)).topics
            = dedupFirst [] ((i0 :: g1).flatMap Interaction.topics)
        ∧ (mkWeekSummary fd k i0 (i0 :: g1)).sentiment
            = some (majorityVote ((i0 :: g1).filterMap Interaction.sentiment))) := by
  have hi0 : i0 ∈ l.filter (fun i => wk i.timestamp = k) := by
    rw [hg]
    exact List.mem_cons_self _ _
  have hi0l : i0 ∈ l := List.mem_of_mem_filter hi0
  have hi0k : wk i0.timestamp = k := by
    have := (List.mem_filter.1 hi0).2
    simpa using this
  have hlen : ¬l.length = 0 := by
    intro h
    rw [List.length_eq_zero] at h
    subst h
    simp at hg
  have hkmem : k ∈ dedupFirst [] (l.map (fun i => wk i.timestamp)) :=
    mem_dedupFirst (List.mem_map.2 ⟨i0, hi0l, hi0k⟩) (by simp)
  have hsum : summarizeInteractions wk fd l
      = (dedupFirst [] (l.map (fun i => wk i.timestamp))).map (fun k =>
          summarizeGroup fd k (l.filter (fun i => wk i.timestamp = k))) := by
    unfold summarizeInteractions
    rw [if_neg hlen]
  refine ⟨by rw [hsum, List.length_map], fun h1 => ?_, fun h1 => ?_⟩
  · subst h1
    have : summarizeGroup fd k (l.filter (fun i => wk i.timestamp = k)) = i0 := by
      rw [hg]
      rfl
    rw [hsum]
    exact List.mem_map.2 ⟨k, hkmem, this⟩
  · rcases List.exists_cons_of_ne_nil h1 with ⟨b, t, rfl⟩
    have hval : summarizeGroup fd k (l.filter (fun i => wk i.timestamp = k))
        = mkWeekSummary fd k i0 (i0 :: b :: t) := by
      rw [hg]
      rfl
    refine ⟨?_, rfl, rfl, rfl, ?_⟩
    · rw [hsum]
      exact List.mem_map.2 ⟨k, hkmem, hval⟩
    · show some (determineOverallSentiment ((i0 :: b :: t).filterMap Interaction.sentiment))
        = some (majorityVote ((i0 :: b :: t).filterMap Interaction.sentiment))
      rw [determineOverallSentiment_eq_majorityVote]

/-- C4 counterexample: two interactions of the same week (constant week
key), listed newest-first as `compact` produces them, with timestamps 2
and 1: the synthesized summary carries timestamp 2 — the newest member's
— not the earliest member's timestamp 1, refuting the claim's "timestamp
equals the earliest member's timestamp". -/
theorem c4_week_summary_counterexample :
    ([exInteraction "a" 2 none, exInteraction "b" 1 none].filter
        (fun i => wkC i.timestamp = "W")
      = [exInteraction "a" 2 none, exInteraction "b" 1 none])
    ∧ ((summarizeInteractions wkC fdC
          [exInteraction "a" 2 none, exInteraction "b" 1 none]).map Interaction.timestamp
        = [2])
    ∧ ¬(∀ s ∈ summarizeInteractions wkC fdC
          [exInteraction "a" 2 none, exInteraction "b" 1 none], s.timestamp = 1) := by
  refine ⟨by decide, by decide, ?_⟩
  intro h
  have := h (summarizeGroup fdC "W"
    [exInteraction "a" 2 none, exInteraction "b" 1 none]) (by decide)
  exact absurd this (by decide)

/-- C4 witness: the amended theorem applied to the two-member week
group above. -/
theorem c4_week_summary_witness :
    ([exInteraction "a" 2 none, exInteraction "b" 1 none].filter
        (fun i => wkC i.timestamp = "W")
      = exInteraction "a" 2 none :: [exInteraction "b" 1 none])
    ∧ (mkWeekSummary fdC "W" (exInteraction "a" 2 none)
          (exInteraction "a" 2 none :: [exInteraction "b" 1 none])
        ∈ summarizeInteractions wkC fdC
            [exInteraction "a" 2 none, exInteraction "b" 1 none]) := by
  refine ⟨by decide, ?_⟩
  exact ((c4_week_summary wkC fdC
      [exInteraction "a" 2 none, exInteraction "b" 1 none] "W"
      (exInteraction "a" 2 none) [exInteraction "b" 1 none] (by decide)).2.2
      (by decide)).1

/-! ## Store round-trip machinery (C9, C10) -/

theorem insertInterRows_ok (db : Db) (rows : List InterRow)
    (hnd : (rows.map InterRow.id).Nodup)
    (hdisj : ∀ r ∈ rows, ∀ x ∈ db.interactions, x.id ≠ r.id) :
    insertInterRows db rows = ({ db with interactions := db.interactions ++ rows }, true) := by
  induction rows generalizing db with
  | nil => simp [insertInterRows]
  | cons r rest ih =>
      rw [List.map_cons, List.nodup_cons] at hnd
      have hfalse : db.interactions.any (fun x => x.id = r.id) = false := by
        rw [List.any_eq_false]
        intro x hx
        simp only [decide_eq_true_eq]
        exact hdisj r (List.mem_cons_self _ _) x hx
      have hdisj' : ∀ r' ∈ rest,
          ∀ x ∈ ({ db with interactions := db.interactions ++ [r] } : Db).interactions,
            x.id ≠ r'.id := by
        intro r' hr' x hx
        rcases List.mem_append.1 hx with hx' | hx'
        · exact hdisj r' (List.mem_cons_of_mem _ hr') x hx'
        · have hxr : x = r := by simpa using hx'
          subst hxr
          intro he
          exact hnd.1 (he ▸ List.mem_map_of_mem InterRow.id hr')
      simp only [insertInterRows, insertInterRow, hfalse, if_false, Bool.false_eq_true,
        if_true]
      rw [ih _ hnd.2 hdisj']
      simp [List.append_assoc]

theorem insertFactRows_ok (db : Db) (rows : List FactRow)
    (hnd : (rows.map FactRow.id).Nodup)
    (hdisj : ∀ r ∈ rows, ∀ x ∈ db.key_facts, x.id ≠ r.id) :
    insertFactRows db rows = ({ db with key_facts := db.key_facts ++ rows }, true) := by
  induction rows generalizing db with
  | nil => simp [insertFactRows]
  | cons r rest ih =>
      rw [List.map_cons, List.nodup_cons] at hnd
      have hfalse : db.key_facts.any (fun x => x.id = r.id) = false := by
        rw [List.any_eq_false]
        intro x hx
        simp only [decide_eq_true_eq]
        exact hdisj r (List.mem_cons_self _ _) x hx
      have hdisj' : ∀ r' ∈ rest,
          ∀ x ∈ ({ db with key_facts := db.key_facts ++ [r] } : Db).key_facts,
            x.id ≠ r'.id := by
        intro r' hr' x hx
        rcases List.mem_append.1 hx with hx' | hx'
        · exact hdisj r' (List.mem_cons_of_mem _ hr') x hx'
        · have hxr : x = r := by simpa using hx'
          subst hxr
          intro he
          exact hnd.1 (he ▸ List.mem_map_of_mem FactRow.id hr')
      simp only [insertFactRows, insertFactRow, hfalse, if_false, Bool.false_eq_true,
        if_true]
      rw [ih _ hnd.2 hdisj']
      simp [List.append_assoc]

/-- Success characterization of `storeContactMemory`: when the written
ids are duplicate-free and do not collide with rows of other contacts,
the write succeeds and fully replaces the contact's rows. -/
theorem store_ok (db : Db) (m : ContactMemoryEntry)
    (h1 : (m.interactions.map Interaction.id).Nodup)
    (h2 : (m.keyFacts.map KeyFact.id).Nodup)
    (h3 : ∀ i ∈ m.interactions, ∀ x ∈ db.interactions,
        x.contact_id ≠ m.contactId → x.id ≠ i.id)
    (h4 : ∀ f ∈ m.keyFacts, ∀ x ∈ db.key_facts,
        x.contact_id ≠ m.contactId → x.id ≠ f.id) :
    storeContactMemory db m
      = ({ contact_memory :=
            (db.contact_memory.filter (fun c => c.contact_id ≠ m.contactId))
              ++ [{ contact_id := m.contactId, location_id := m.locationId,
                    last_updated := m.lastUpdated, metadata := m.metadata,
                    preferences := m.preferences, sentiment := m.sentiment,
                    created_at := m.metadata.firstSeen }],
           interactions :=
            (db.interactions.filter (fun r => r.contact_id ≠ m.contactId))
              ++ m.interactions.map (interRowOf m.contactId),
           key_facts :=
            (db.key_facts.filter (fun r => r.contact_id ≠ m.contactId))
              ++ m.keyFacts.map (factRowOf m.contactId) }, true) := by
  have hndI : ((m.interactions.map (interRowOf m.contactId)).map InterRow.id).Nodup := by
    rw [List.map_map]
    exact h1
  have hndF : ((m.keyFacts.map (factRowOf m.contactId)).map FactRow.id).Nodup := by
    rw [List.map_map]
    exact h2
  simp only [storeContactMemory, upsertContactRow]
  rw [insertInterRows_ok _ _ hndI]
  · simp only
    rw [insertFactRows_ok _ _ hndF]
    · rfl
    · intro r hr x hx
      rcases List.mem_map.1 hr with ⟨f, hf, rfl⟩
      have hx' := List.mem_filter.1 hx
      have hxne : x.contact_id ≠ m.contactId := by simpa using hx'.2
      exact h4 f hf x hx'.1 hxne
  · intro r hr x hx
    rcases List.mem_map.1 hr with ⟨i, hi, rfl⟩
    have hx' := List.mem_filter.1 hx
    have hxne : x.contact_id ≠ m.contactId := by simpa using hx'.2
    exact h3 i hi x hx'.1 hxne

theorem length_insertRowByTs (a : InterRow) (l : List InterRow) :
    (insertRowByTs a l).length = l.length + 1 := by
  induction l with
  | nil => rfl
  | cons x rest ih =>
      unfold insertRowByTs
      split
      · simp
      · simp [ih]

theorem length_sortRowsNewestFirst (l : List InterRow) :
    (sortRowsNewestFirst l).length = l.length := by
  induction l with
  | nil => rfl
  | cons a rest ih =>
      unfold sortRowsNewestFirst
      rw [length_insertRowByTs, ih]
      rfl

theorem length_insertRowByConf (a : FactRow) (l : List FactRow) :
    (insertRowByConf a l).length = l.length + 1 := by
  induction l with
  | nil => rfl
  | cons x rest ih =>
      unfold insertRowByConf
      split
      · simp
      · simp [ih]

theorem length_sortRowsByConfidence (l : List FactRow) :
    (sortRowsByConfidence l).length = l.length := by
  induction l with
  | nil => rfl
  | cons a rest ih =>
      unfold sortRowsByConfidence
      rw [length_insertRowByConf, ih]
      rfl

/-- C9 (amended): a Store `write` immediately followed by a `read` of
the same contactId returns an entry with the written interaction and
key-fact counts, provided the written interaction ids (resp. fact ids)
are pairwise distinct and collide with no row stored for a *different*
contact — the `interactions`/`key_facts` tables carry a global `id`
PRIMARY KEY, so a colliding insert throws mid-write (no transaction)
and the read sees a partial row set (see the counterexample). -/
theorem c9_write_read_roundtrip (db : Db) (m : ContactMemoryEntry)
    (h1 : (m.interactions.map Interaction.id).Nodup)
    (h2 : (m.keyFacts.map KeyFact.id).Nodup)
    (h3 : ∀ i ∈ m.interactions, ∀ x ∈ db.interactions,
        x.contact_id ≠ m.contactId → x.id ≠ i.id)
    (h4 : ∀ f ∈ m.keyFacts, ∀ x ∈ db.key_facts,
        x.contact_id ≠ m.contactId → x.id ≠ f.id) :
    (storeContactMemory db m).2 = true
    ∧ ∃ e, getContactMemory (storeContactMemory db m).1 m.contactId = some e
        ∧ e.interactions.length = m.interactions.length
        ∧ e.keyFacts.length = m.keyFacts.length := by
  rw [store_ok db m h1 h2 h3 h4]
  refine ⟨rfl, ?_⟩
  set row : ContactRow :=
    { contact_id := m.contactId, location_id := m.locationId,
      last_updated := m.lastUpdated, metadata := m.metadata,
      preferences := m.preferences, sentiment := m.sentiment,
      created_at := m.metadata.firstSeen } with hrow
  have hfind : ((db.contact_memory.filter (fun c => c.contact_id ≠ m.contactId))
      ++ [row]).find? (fun r => r.contact_id = m.contactId) = some row := by
    rw [List.find?_append]
    have hnone : (db.contact_memory.filter (fun c => c.contact_id ≠ m.contactId)).find?
        (fun r => r.contact_id = m.contactId) = none := by
      rw [List.find?_eq_none]
      intro x hx
      have := (List.mem_filter.1 hx).2
      simpa using this
    rw [hnone]
    simp [hrow]
  have hfiltI : (((db.interactions.filter (fun r => r.contact_id ≠ m.contactId))
      ++ m.interactions.map (interRowOf m.contactId)).filter
        (fun r => r.contact_id = m.contactId))
      = m.interactions.map (interRowOf m.contactId) := by
    rw [List.filter_append]
    have hleft : (db.interactions.filter (fun r => r.contact_id ≠ m.contactId)).filter
        (fun r => r.contact_id = m.contactId) = [] := by
      rw [List.filter_eq_nil_iff]
      intro x hx
      have := (List.mem_filter.1 hx).2
      simpa using this
    have hright : (m.interactions.map (interRowOf m.contactId)).filter
        (fun r => r.contact_id = m.contactId) = m.interactions.map (interRowOf m.contactId) := by
      rw [List.filter_eq_self]
      intro x hx
      rcases List.mem_map.1 hx with ⟨i, _, rfl⟩
      simp [interRowOf]
    rw [hleft, hright, List.nil_append]
  have hfiltF : (((db.key_facts.filter (fun r => r.contact_id ≠ m.contactId))
      ++ m.keyFacts.map (factRowOf m.contactId)).filter
        (fun r => r.contact_id = m.contactId))
      = m.keyFacts.map (factRowOf m.contactId) := by
    rw [List.filter_append]
    have hleft : (db.key_facts.filter (fun r => r.contact_id ≠ m.contactId)).filter
        (fun r => r.contact_id = m.contactId) = [] := by
      rw [List.filter_eq_nil_iff]
      intro x hx
      have := (List.mem_filter.1 hx).2
      simpa using this
    have hright : (m.keyFacts.map (factRowOf m.contactId)).filter
        (fun r => r.contact_id = m.contactId) = m.keyFacts.map (factRowOf m.contactId) := by
      rw [List.filter_eq_self]
      intro x hx
      rcases List.mem_map.1 hx with ⟨f, _, rfl⟩
      simp [factRowOf]
    rw [hleft, hright, List.nil_append]
  unfold getContactMemory
  rw [hfind]
  refine ⟨_, rfl, ?_, ?_⟩
  · simp only [hfiltI, List.length_map, length_sortRowsNewestFirst]
  · simp only [hfiltF, List.length_map, length_sortRowsByConfidence]

/-- A stored contact "A" owning an interaction row with id "x". -/
def exDbA : Db :=
  { contact_memory :=
      [{ contact_id := "A", location_id := "L", last_updated := 0,
         metadata := { name := "A", tags := [], source := "ghl", firstSeen := 0, lastSeen := 0 },
         preferences := [], sentiment := { overall := .neutral, history := [] },
         created_at := 0 }]
    interactions := [interRowOf "A" (exInteraction "x" 0 none)]
    key_facts := [] }

/-- An entry for contact "B" whose single interaction reuses id "x" —
unique within the contact (the data model's stated invariant), but
colliding with contact "A"'s row under the global PRIMARY KEY. -/
def exEntryB : ContactMemoryEntry :=
  { contactId := "B", locationId := "L", lastUpdated := 5
    metadata := { name := "B", tags := [], source := "ghl", firstSeen := 5, lastSeen := 5 }
    interactions := [exInteraction "x" 5 none]
    keyFacts := []
    preferences := []
    sentiment := { overall := .neutral, history := [] } }

/-- C9 counterexample: writing `exEntryB` (one interaction) into
`exDbA` throws on the PRIMARY KEY conflict with contact "A"'s row after
the entry row was already upserted, and the immediate read returns an
entry with zero interactions — not the one written. -/
theorem c9_write_read_counterexample :
    (storeContactMemory exDbA exEntryB).2 = false
    ∧ ((getContactMemory (storeContactMemory exDbA exEntryB).1 "B").map
        (fun e => e.interactions.length) = some 0)
    ∧ exEntryB.interactions.length = 1 := by
  refine ⟨by decide, ?_, by decide⟩
  decide

/-- C9 witness: the amended round-trip applied to a concrete
collision-free write into the empty database. -/
theorem c9_write_read_witness :
    (storeContactMemory ⟨[], [], []⟩
        { exEntryB with interactions := [exInteraction "w9" 5 none] }).2 = true
    ∧ ∃ e, getContactMemory
          (storeContactMemory ⟨[], [], []⟩
            { exEntryB with interactions := [exInteraction "w9" 5 none] }).1
          "B" = some e
        ∧ e.interactions.length = 1
        ∧ e.keyFacts.length = 0 :=
  c9_write_read_roundtrip ⟨[], [], []⟩
    { exEntryB with interactions := [exInteraction "w9" 5 none] }
    (by decide) (by decide)
    (by intro i _ x hx; simp at hx)
    (by intro f _ x hx; simp at hx)

/-- C10: on an initialized store, `addInteraction` for a contact with no
stored entry succeeds (the schema's foreign key is never enabled, and no
entry-existence check is made) and inserts the interaction row, yet
`getContactMemory` for that contact still returns `none` — the appended
row is unreachable through `read` until an entry is written. -/
theorem c10_append_unreachable (db : Db) (cid : String) (i : Interaction) (now : Int)
    (hnoentry : getContactMemory db cid = none)
    (hfresh : ∀ x ∈ db.interactions, x.id ≠ i.id) :
    (addInteraction db cid i now).2 = true
    ∧ interRowOf cid i ∈ (addInteraction db cid i now).1.interactions
    ∧ getContactMemory (addInteraction db cid i now).1 cid = none := by
  have hfind : db.contact_memory.find? (fun r => r.contact_id = cid) = none := by
    unfold getContactMemory at hnoentry
    rcases hf : db.contact_memory.find? (fun r => r.contact_id = cid) with _ | row
    · exact hf
    · rw [hf] at hnoentry
      simp at hnoentry
  have hfalse : db.interactions.any (fun x => x.id = (interRowOf cid i).id) = false := by
    rw [List.any_eq_false]
    intro x hx
    simp only [decide_eq_true_eq]
    exact hfresh x hx
  have hnomem : ∀ r ∈ db.contact_memory, r.contact_id ≠ cid := by
    intro r hr
    have := List.find?_eq_none.1 hfind r hr
    simpa using this
  simp only [addInteraction, insertInterRow, hfalse, if_false, Bool.false_eq_true, if_true]
  refine ⟨trivial, by simp, ?_⟩
  unfold getContactMemory
  have hfind' : (db.contact_memory.map (fun r =>
      if r.contact_id = cid then { r with last_updated := now } else r)).find?
        (fun r => r.contact_id = cid) = none := by
    rw [List.find?_eq_none]
    intro x hx
    rcases List.mem_map.1 hx with ⟨r, hr, rfl⟩
    have hne := hnomem r hr
    rw [if_neg hne]
    simpa using hne
  rw [hfind']

/-- C10 witness: appending to contact "B", which has no entry in
`exDbA`, succeeds and inserts the row, while the read still returns
`none`. -/
theorem c10_append_unreachable_witness :
    getContactMemory exDbA "B" = none
    ∧ (∀ x ∈ exDbA.interactions, x.id ≠ (exInteraction "w10" 7 none).id)
    ∧ (addInteraction exDbA "B" (exInteraction "w10" 7 none) 7).2 = true
    ∧ interRowOf "B" (exInteraction "w10" 7 none)
        ∈ (addInteraction exDbA "B" (exInteraction "w10" 7 none) 7).1.interactions
    ∧ getContactMemory (addInteraction exDbA "B" (exInteraction "w10" 7 none) 7).1 "B"
        = none := by
  have h := c10_append_unreachable exDbA "B" (exInteraction "w10" 7 none) 7
    (by decide) (by decide)
  exact ⟨by decide, by decide, h.1, h.2.1, h.2.2⟩

/-! ## Sync pipeline (C1, C2) -/

theorem insertInterRows_sound (db : Db) (rows : List InterRow)
    (hok : (insertInterRows db rows).2 = true) :
    (insertInterRows db rows).1
      = { db with interactions := db.interactions ++ rows } := by
  induction rows generalizing db with
  | nil => simp [insertInterRows]
  | cons r rest ih =>
      by_cases hc : db.interactions.any (fun x => x.id = r.id) = true
      · exfalso
        simp only [insertInterRows, insertInterRow, hc, if_true] at hok
        simp at hok
      · have hc' : db.interactions.any (fun x => x.id = r.id) = false :=
          Bool.not_eq_true _ ▸ (by simpa using hc)
        simp only [insertInterRows, insertInterRow, hc', if_false, Bool.false_eq_true,
          if_true] at hok ⊢
        rw [ih _ hok]
        simp [List.append_assoc]

theorem insertFactRows_sound (db : Db) (rows : List FactRow)
    (hok : (insertFactRows db rows).2 = true) :
    (insertFactRows db rows).1
      = { db with key_facts := db.key_facts ++ rows } := by
  induction rows generalizing db with
  | nil => simp [insertFactRows]
  | cons r rest ih =>
      by_cases hc : db.key_facts.any (fun x => x.id = r.id) = true
      · exfalso
        simp only [insertFactRows, insertFactRow, hc, if_true] at hok
        simp at hok
      · have hc' : db.key_facts.any (fun x => x.id = r.id) = false :=
          Bool.not_eq_true _ ▸ (by simpa using hc)
        simp only [insertFactRows, insertFactRow, hc', if_false, Bool.false_eq_true,
          if_true] at hok ⊢
        rw [ih _ hok]
        simp [List.append_assoc]

/-- Whenever a `write` reports success, the immediate `read` of the same
contact returns the written interaction and key-fact counts. -/
theorem store_read_counts (db : Db) (m : ContactMemoryEntry)
    (hok : (storeContactMemory db m).2 = true) :
    ∃ e, getContactMemory (storeContactMemory db m).1 m.contactId = some e
      ∧ e.interactions.length = m.interactions.length
      ∧ e.keyFacts.length = m.keyFacts.length := by
  simp only [storeContactMemory, upsertContactRow] at hok ⊢
  set db2 : Db :=
    { contact_memory :=
        (db.contact_memory.filter (fun c => c.contact_id ≠ m.contactId))
          ++ [{ contact_id := m.contactId, location_id := m.locationId,
                last_updated := m.lastUpdated, metadata := m.metadata,
                preferences := m.preferences, sentiment := m.sentiment,
                created_at := m.metadata.firstSeen }],
      interactions := db.interactions.filter (fun r => r.contact_id ≠ m.contactId),
      key_facts := db.key_facts.filter (fun r => r.contact_id ≠ m.contactId) } with hdb2
  by_cases hI : (insertInterRows db2 (m.interactions.map (interRowOf m.contactId))).2 = true
  · rw [if_pos hI] at hok ⊢
    have hIdb := insertInterRows_sound db2 _ hI
    have hF := insertFactRows_sound _ _ hok
    rw [hIdb] at hF ⊢
    rw [hF]
    have hfind : (getContactMemory
        { contact_memory := db2.contact_memory,
          interactions := db2.interactions ++ m.interactions.map (interRowOf m.contactId),
          key_facts := db2.key_facts ++ m.keyFacts.map (factRowOf m.contactId) }
        m.contactId) = _ := rfl
    unfold getContactMemory
    have hfindrow : (db2.contact_memory.find? (fun r => r.contact_id = m.contactId))
        = some { contact_id := m.contactId, location_id := m.locationId,
                 last_updated := m.lastUpdated, metadata := m.metadata,
                 preferences := m.preferences, sentiment := m.sentiment,
                 created_at := m.metadata.firstSeen } := by
      rw [hdb2]
      simp only
      rw [List.find?_append]
      have hnone : (db.contact_memory.filter (fun c => c.contact_id ≠ m.contactId)).find?
          (fun r => r.contact_id = m.contactId) = none := by
        rw [List.find?_eq_none]
        intro x hx
        have := (List.mem_filter.1 hx).2
        simpa using this
      rw [hnone]
      simp
    rw [hfindrow]
    have hfiltI : ((db2.interactions ++ m.interactions.map (interRowOf m.contactId)).filter
          (fun r => r.contact_id = m.contactId))
        = m.interactions.map (interRowOf m.contactId) := by
      rw [List.filter_append]
      have hleft : db2.interactions.filter (fun r => r.contact_id = m.contactId) = [] := by
        rw [List.filter_eq_nil_iff]
        intro x hx
        rw [hdb2] at hx
        have := (List.mem_filter.1 hx).2
        simpa using this
      have hright : (m.interactions.map (interRowOf m.contactId)).filter
          (fun r => r.contact_id = m.contactId)
          = m.interactions.map (interRowOf m.contactId) := by
        rw [List.filter_eq_self]
        intro x hx
        rcases List.mem_map.1 hx with ⟨j, _, rfl⟩
        simp [interRowOf]
      rw [hleft, hright, List.nil_append]
    have hfiltF : ((db2.key_facts ++ m.keyFacts.map (factRowOf m.contactId)).filter
          (fun r => r.contact_id = m.contactId))
        = m.keyFacts.map (factRowOf m.contactId) := by
      rw [List.filter_append]
      have hleft : db2.key_facts.filter (fun r => r.contact_id = m.contactId) = [] := by
        rw [List.filter_eq_nil_iff]
        intro x hx
        rw [hdb2] at hx
        have := (List.mem_filter.1 hx).2
        simpa using this
      have hright : (m.keyFacts.map (factRowOf m.contactId)).filter
          (fun r => r.contact_id = m.contactId)
          = m.keyFacts.map (factRowOf m.contactId) := by
        rw [List.filter_eq_self]
        intro x hx
        rcases List.mem_map.1 hx with ⟨f, _, rfl⟩
        simp [factRowOf]
      rw [hleft, hright, List.nil_append]
    refine ⟨_, rfl, ?_, ?_⟩
    · simp only [hfiltI, List.length_map, length_sortRowsNewestFirst]
    · simp only [hfiltF, List.length_map, length_sortRowsByConfidence]
  · rw [if_neg hI] at hok
    simp at hok

theorem syncFinal_length_le (wk fd : Int → String) (now : Int) (l : List Interaction) :
    (syncFinalInteractions wk fd now l).length ≤ max 100 l.length := by
  unfold syncFinalInteractions
  split
  · calc ((sortNewestFirst l).take (compact wk fd now l).compactedCount).length
        ≤ (compact wk fd now l).compactedCount := by
          rw [List.length_take]
          exact min_le_left _ _
      _ ≤ 100 := by
          unfold compact
          simp only
          rw [List.length_take]
          exact min_le_left _ _
      _ ≤ max 100 l.length := le_max_left _ _
  · exact le_max_right _ _

/-- C2 (amended): when `syncFromSource` completes successfully, the
immediate `getContactMemory` returns at most `max 100 (batch size)`
interactions; in particular at most 100 whenever the batch holds at most
100 messages.  The unconditional 100-cap of the claim fails: a batch of
more than 100 messages of which at most 20 are older than 30 days is
stored uncompacted (`shouldCompact` is false), exceeding the cap — see
the counterexample. -/
theorem c2_read_cap (wk fd : Int → String) (ee : String → List ExtractedEntity)
    (cc pc : String → List String) (nid : Nat → String)
    (db : Db) (locationId contactId : String) (now : Int)
    (messages : List GHLMessage) (contactName : String)
    (prefs : List (String × String))
    (hok : (syncFromSource wk fd ee cc pc nid db locationId contactId now
        messages contactName prefs).2 = true) :
    ∃ e, getContactMemory (syncFromSource wk fd ee cc pc nid db locationId contactId now
          messages contactName prefs).1 contactId = some e
      ∧ e.interactions.length ≤ max 100 messages.length
      ∧ (messages.length ≤ 100 → e.interactions.length ≤ 100) := by
  simp only [syncFromSource] at hok ⊢
  obtain ⟨e, he, hlen, -⟩ := store_read_counts db _ hok
  refine ⟨e, he, ?_⟩
  have hbound : e.interactions.length ≤ max 100 messages.length := by
    rw [hlen]
    simp only
    calc (syncFinalInteractions wk fd now (indexMessages ee messages)).length
        ≤ max 100 (indexMessages ee messages).length := syncFinal_length_le _ _ _ _
      _ = max 100 messages.length := by
          unfold indexMessages
          rw [List.length_map]
  refine ⟨hbound, fun hle => ?_⟩
  calc e.interactions.length ≤ max 100 messages.length := hbound
    _ = 100 := by omega

/-- A batch of 101 fresh messages with distinct ids. -/
def c2Msgs : List GHLMessage :=
  (List.range 101).map (fun n =>
    { id := "m" ++ toString n, dateAdded := 8640000000, mtype := "SMS",
      direction := .inbound, body := "" })

/-- C2 counterexample: syncing a batch of 101 messages, all recent
(no interaction older than 30 days), stores all 101 interactions —
`shouldCompact` is false because at most 20 are old — and the immediate
read returns 101 > 100 interactions. -/
theorem c2_read_cap_counterexample :
    ((getContactMemory (syncFromSource wkC fdC (fun _ => []) (fun _ => [])
          (fun _ => []) (fun _ => "") ⟨[], [], []⟩ "L" "C" 8640000000 c2Msgs
          "n" []).1 "C").map (fun e => e.interactions.length) = some 101) := by
  decide

/-- A single fresh message. -/
def c2Msg1 : List GHLMessage :=
  [{ id := "m1", dateAdded := 0, mtype := "SMS", direction := .inbound, body := "" }]

/-- C2 witness: the amended cap applied to a successful one-message
sync. -/
theorem c2_read_cap_witness :
    ((syncFromSource wkC fdC (fun _ => []) (fun _ => []) (fun _ => []) (fun _ => "")
        ⟨[], [], []⟩ "L" "C" 0 c2Msg1 "n" []).2 = true)
    ∧ ∃ e, getContactMemory (syncFromSource wkC fdC (fun _ => []) (fun _ => [])
          (fun _ => []) (fun _ => "") ⟨[], [], []⟩ "L" "C" 0 c2Msg1 "n" []).1 "C"
          = some e
        ∧ e.interactions.length ≤ max 100 c2Msg1.length
        ∧ (c2Msg1.length ≤ 100 → e.interactions.length ≤ 100) :=
  ⟨by decide,
    c2_read_cap wkC fdC (fun _ => []) (fun _ => []) (fun _ => []) (fun _ => "")
      ⟨[], [], []⟩ "L" "C" 0 c2Msg1 "n" [] (by decide)⟩

/-- A list of 100 interactions: 79 fresh and 21 from the same 40-day-old week, so
`shouldCompact` fires and one weekly summary is synthesized. -/
def c1Input : List Interaction :=
  List.replicate 79 (exInteraction "y" 8640000000 none)
    ++ List.replicate 21 (exInteraction "o" 5184000000 none)

/-- C1: on `c1Input` compaction triggers and summarizes the 21 old
interactions into one summary, but the interaction set `syncFromSource`
actually stores — `interactions.slice(0, compactedCount)` of the sorted
originals — is not the replacement set `compact` computed: it contains
no summary interaction at all and instead retains a raw 40-day-old
interaction.  (`CompactionResult` carries only counts; the `kept` array
of the claimed contract does not exist in the source.) -/
theorem c1_sync_discards_summaries :
    shouldCompact 8640000000 c1Input = true
    ∧ (compact wkC fdC 8640000000 c1Input).summarized = 1
    ∧ syncFinalInteractions wkC fdC 8640000000 c1Input
        ≠ compactKept wkC fdC 8640000000 c1Input
    ∧ (∀ s ∈ syncFinalInteractions wkC fdC 8640000000 c1Input,
        ¬ s.id = "summary_" ++ wkC 5184000000)
    ∧ exInteraction "o" 5184000000 none
        ∈ syncFinalInteractions wkC fdC 8640000000 c1Input
    ∧ mkWeekSummary fdC "W" (exInteraction "o" 5184000000 none)
        (List.replicate 21 (exInteraction "o" 5184000000 none))
        ∈ compactKept wkC fdC 8640000000 c1Input := by
  refine ⟨by decide, by decide, by decide, by decide, by decide, by decide⟩

/-- C5 witness: the iff instantiated at the empty interaction list. -/
theorem c5_shouldCompact_iff_witness :
    (shouldCompact 0 ([] : List Interaction) = true ↔
      (100 ≤ ([] : List Interaction).length ∧
        20 < (([] : List Interaction).filter
          (fun i => summaryThreshold < 0 - i.timestamp)).length))
    ∧ (([] : List Interaction).length < 100 →
        shouldCompact 0 ([] : List Interaction) = false) :=
  c5_shouldCompact_iff 0 []

/-- C6 witness: the aggregate at a concrete one-element list. -/
theorem c6_overall_sentiment_witness :
    calculateOverallSentiment [exInteraction "w6" 0 (some .positive)]
      = majorityVote (([exInteraction "w6" 0 (some .positive)].take 10).filterMap
          Interaction.sentiment) :=
  (c6_overall_sentiment).1 [exInteraction "w6" 0 (some .positive)]

/-- C7 witness: the objection cap at a concrete interaction. -/
theorem c7_extract_key_facts_witness :
    (factsForInteraction (fun _ => ["call you back tomorrow"]) (fun _ => [])
        (exInteraction "w7" 0 none)).countP
        (fun f => f.category = FactCategory.objection) ≤ 1 :=
  (c7_extract_key_facts (fun _ => ["call you back tomorrow"]) (fun _ => [])
    (fun _ => "") [] "c" (exInteraction "w7" 0 none)).2.2.1

end ContactMemory
